import Mathlib

/-!
Verification of the simulation core of `sfs.py` (Starfield Storm).

Shallow embedding conventions:
* Python floats are modelled as exact rationals (`ℚ`); millisecond clocks and
  integer config values as `ℤ`.
* `math.hypot(dx, dy) < r1 + r2` is modelled as `dx^2 + dy^2 < (r1+r2)^2`,
  which is equivalent for the nonnegative radii the game uses.
* The player's pointer-chasing displacement, the velocities of fired bullets
  and the randomized spawns involve `sqrt`/trig/randomness; they enter the
  frame step as oracle inputs (`FrameEnv`), while every gate, clamp, removal
  and score/health mutation is translated from the source.
* Python dicts keyed by powerup kind become functions `PType → Option ℤ`
  (kind → expiry time), matching dict read/write/delete semantics.
* All numeric tuning parameters from `settings.json` are injected via a
  `Config` record, as the source reads them from configuration.
-/

namespace SFS

/-- The powerup kinds recognized by the game (`config["powerups"]` keys used
by the code: `rapid_fire`, `speed_boost`, `spread_shot`, `shield`, `nuke`). -/
inductive PType where
  | rapid_fire
  | speed_boost
  | spread_shot
  | shield
  | nuke
deriving DecidableEq, Repr

/-- Injected numeric tuning parameters (from `settings.json`). -/
structure Config where
  win_width : ℤ
  win_height : ℤ
  player_radius : ℚ
  initial_health : ℚ
  player_fire_delay_ms : ℤ
  player_max_speed : ℚ
  collision_with_enemy_damage : ℚ
  bullet_radius : ℚ
  enemy_bullet_damage : ℚ
  rapid_fire_factor : ℚ
  speed_boost_multiplier : ℚ
  time_scale_ms : ℤ
  wave_interval_start_ms : ℤ
  wave_interval_min_ms : ℤ
  wave_interval_decrement_ms : ℤ
deriving Repr

/-- Python `int(q)` (truncation toward zero) on an exact rational. -/
def pyTrunc (q : ℚ) : ℤ :=
  if 0 ≤ q then ⌊q⌋ else -⌊-q⌋

/-- Strict circle-overlap test used by `Game.distance`-based collision checks:
`math.hypot(x2-x1, y2-y1) < r1 + r2`, squared to stay in `ℚ`. -/
def hits (x1 y1 r1 x2 y2 r2 : ℚ) : Bool :=
  decide ((x2 - x1) ^ 2 + (y2 - y1) ^ 2 < (r1 + r2) ^ 2)

/-- Source `Player` record (`sfs.py` lines 82–205); sprite fields are rendering-only
and omitted from the simulation state. -/
structure Player where
  radius : ℚ
  x : ℚ
  y : ℚ
  health : ℚ
  fire_delay : ℤ
  last_shot_time : ℤ
  max_speed : ℚ
  collision_with_enemy_damage : ℚ
  base_fire_delay : ℤ
  base_max_speed : ℚ
  active_powerups : PType → Option ℤ

/-- Source `Player.__init__` (lines 83–109): fresh player from config, centered,
with empty powerup map; `last_shot_time = pygame.time.get_ticks()` is the
current global clock `now`. -/
def Player.init (cfg : Config) (now : ℤ) : Player where
  radius := cfg.player_radius
  x := ((cfg.win_width / 2 : ℤ) : ℚ)
  y := ((cfg.win_height / 2 : ℤ) : ℚ)
  health := cfg.initial_health
  fire_delay := cfg.player_fire_delay_ms
  last_shot_time := now
  max_speed := cfg.player_max_speed
  collision_with_enemy_damage := cfg.collision_with_enemy_damage
  base_fire_delay := cfg.player_fire_delay_ms
  base_max_speed := cfg.player_max_speed
  active_powerups := fun _ => none

/-- Source `Player.is_shielded` (lines 199–200): `"shield" in self.active_powerups`. -/
def Player.is_shielded (p : Player) : Bool :=
  (p.active_powerups PType.shield).isSome

/-- Source `Player.apply_powerup` (lines 202–205): unconditionally overwrite the
kind's expiry with `now + custom_duration`. -/
def Player.apply_powerup (p : Player) (ptype : PType) (now custom_duration : ℤ) : Player :=
  { p with active_powerups :=
      fun k => if k = ptype then some (now + custom_duration) else p.active_powerups k }

/-- The purge step of `handle_powerup_expiration` (lines 130–133): drop every
kind whose `end_time` satisfies `now >= end_time`. -/
def purgeMap (now : ℤ) (f : PType → Option ℤ) : PType → Option ℤ := fun k =>
  match f k with
  | some e => if now ≥ e then none else some e
  | none => none

/-- Source `Player.handle_powerup_expiration` (lines 129–144): delete every kind with
`now >= end_time`, reset `fire_delay`/`max_speed` to their bases, then reapply
the rapid-fire and speed-boost modifiers if those kinds are still active. -/
def Player.handle_powerup_expiration (cfg : Config) (now : ℤ) (p : Player) : Player :=
  let active : PType → Option ℤ := purgeMap now p.active_powerups
  let fd : ℤ :=
    if (active PType.rapid_fire).isSome then
      pyTrunc ((p.base_fire_delay : ℚ) * cfg.rapid_fire_factor)
    else p.base_fire_delay
  let ms : ℚ :=
    if (active PType.speed_boost).isSome then
      p.base_max_speed * cfg.speed_boost_multiplier
    else p.base_max_speed
  { p with active_powerups := active, fire_delay := fd, max_speed := ms }

/-- Source `Bullet` record (lines 208–250). -/
structure Bullet where
  radius : ℚ
  x : ℚ
  y : ℚ
  dx : ℚ
  dy : ℚ
  from_player : Bool

/-- Source `Bullet.update` (lines 234–236). -/
def Bullet.update (b : Bullet) : Bullet :=
  { b with x := b.x + b.dx, y := b.y + b.dy }

/-- Source `Bullet.off_screen` (lines 249–250): strictly outside on any edge. -/
def Bullet.off_screen (cfg : Config) (b : Bullet) : Bool :=
  decide (b.x < 0) || decide (b.x > (cfg.win_width : ℚ)) ||
  decide (b.y < 0) || decide (b.y > (cfg.win_height : ℚ))

/-- Source `Enemy` record (lines 253–310). -/
structure Enemy where
  radius : ℚ
  x : ℚ
  y : ℚ
  health : ℤ
  fire_delay : ℤ
  last_shot_time : ℤ
  speed : ℚ
  difficulty : ℤ

/-- Source `Enemy.off_screen` (lines 309–310): `y > WIN_HEIGHT + radius`. -/
def Enemy.off_screen (cfg : Config) (e : Enemy) : Bool :=
  decide (e.y > (cfg.win_height : ℚ) + e.radius)

/-- Source `Obstacle` record (lines 313–353); radius/speed randomized at spawn, so
instances enter via oracles. -/
structure Obstacle where
  radius : ℚ
  x : ℚ
  y : ℚ
  health : ℤ
  speed : ℚ
  collision_damage : ℚ

/-- Source `Obstacle.update` (lines 338–339). -/
def Obstacle.update (o : Obstacle) : Obstacle :=
  { o with y := o.y + o.speed }

/-- Source `Obstacle.off_screen` (lines 352–353). -/
def Obstacle.off_screen (cfg : Config) (o : Obstacle) : Bool :=
  decide (o.y > (cfg.win_height : ℚ) + o.radius)

/-- Source `HealthPickup` record (lines 356–392). -/
structure HealthPickup where
  radius : ℚ
  x : ℚ
  y : ℚ
  speed : ℚ
  restore_amount : ℚ

/-- Source `HealthPickup.update` (lines 377–378). -/
def HealthPickup.update (p : HealthPickup) : HealthPickup :=
  { p with y := p.y + p.speed }

/-- Source `HealthPickup.off_screen` (lines 391–392). -/
def HealthPickup.off_screen (cfg : Config) (p : HealthPickup) : Bool :=
  decide (p.y > (cfg.win_height : ℚ) + p.radius)

/-- Source `Powerup` record (lines 395–460); rarity has already been folded into
`duration` at construction (`base_duration * duration_multiplier`). -/
structure Powerup where
  ptype : PType
  radius : ℚ
  x : ℚ
  y : ℚ
  speed : ℚ
  duration : ℤ

/-- Source `Powerup.update` (lines 437–438). -/
def Powerup.update (pw : Powerup) : Powerup :=
  { pw with y := pw.y + pw.speed }

/-- Source `Powerup.off_screen` (lines 459–460). -/
def Powerup.off_screen (cfg : Config) (pw : Powerup) : Bool :=
  decide (pw.y > (cfg.win_height : ℚ) + pw.radius)

/-- The `Game.state` string: `"MENU"`, `"GAME"`, `"GAME_OVER"`. -/
inductive Mode where
  | menu
  | game
  | gameOver
deriving DecidableEq, Repr

/-- The simulation fields of `Game` (lines 465–491); rendering, audio and the
starfield are out of scope. -/
structure GameState where
  mode : Mode
  player : Player
  bullets : List Bullet
  enemies : List Enemy
  obstacles : List Obstacle
  pickups : List HealthPickup
  powerups : List Powerup
  score : ℚ
  wave_interval : ℤ
  wave_interval_min : ℤ
  wave_interval_decrement : ℤ
  last_wave_time : ℤ

/-- Source `Game.reset_game` (lines 794–812): fresh player, empty collections,
score 0, wave fields re-read from config, `last_wave_time` set to the current
global clock. The mode is unchanged (the caller sets it to GAME). -/
def resetGame (cfg : Config) (now : ℤ) (g : GameState) : GameState :=
  { g with
    player := Player.init cfg now
    bullets := []
    enemies := []
    obstacles := []
    pickups := []
    powerups := []
    score := 0
    wave_interval := cfg.wave_interval_start_ms
    wave_interval_min := cfg.wave_interval_min_ms
    wave_interval_decrement := cfg.wave_interval_decrement_ms
    last_wave_time := now }

/-- The MENU→GAME and GAME_OVER→GAME transitions (lines 516–518 and 533–535):
`reset_game()` followed by `state = "GAME"`. -/
def startGame (cfg : Config) (now : ℤ) (g : GameState) : GameState :=
  { resetGame cfg now g with mode := Mode.game }

/-- The difficulty computed each frame (line 550):
`pygame.time.get_ticks() // time_scale_ms`.  Note the dividend is the global
tick clock, not time since the session started. -/
def difficultyAt (cfg : Config) (elapsed_time : ℤ) : ℤ :=
  elapsed_time / cfg.time_scale_ms

/-! ### Collision resolver (`Game.handle_collisions`, lines 636–740)

Each Python pass iterates a snapshot (`lst[:]`) and removes elements from the
live list by identity; since each element is visited once and only the visited
element (or the current bullet) is removed, every pass is equivalent to an
ordered fold that rebuilds the kept list, which is how we embed it. -/

/-- Inner loop of pass 1 (lines 644–659): scan enemies in order; on the first
strict overlap decrement that enemy's health, remove it if `health ≤ 0`
(scoring 10), and stop.  Returns `none` when no enemy overlaps the bullet;
otherwise the updated enemy list and the score delta. -/
def hitEnemies (b : Bullet) : List Enemy → Option (List Enemy × ℚ)
  | [] => none
  | e :: es =>
    if hits b.x b.y b.radius e.x e.y e.radius then
      let e' : Enemy := { e with health := e.health - 1 }
      if e'.health ≤ 0 then some (es, 10) else some (e' :: es, 0)
    else
      match hitEnemies b es with
      | some (es', d) => some (e :: es', d)
      | none => none

/-- Inner loop of pass 2 (lines 660–672), the `for/else` branch: identical
scan over obstacles, only reached when no enemy was hit. -/
def hitObstacles (b : Bullet) : List Obstacle → Option (List Obstacle × ℚ)
  | [] => none
  | o :: os =>
    if hits b.x b.y b.radius o.x o.y o.radius then
      let o' : Obstacle := { o with health := o.health - 1 }
      if o'.health ≤ 0 then some (os, 10) else some (o' :: os, 0)
    else
      match hitObstacles b os with
      | some (os', d) => some (o :: os', d)
      | none => none

/-- One player bullet against the current enemies then (only on a total miss
against enemies) the current obstacles; returns the updated lists, the score
delta and whether the bullet was consumed. -/
def processPlayerBullet (b : Bullet) (es : List Enemy) (os : List Obstacle) :
    List Enemy × List Obstacle × ℚ × Bool :=
  match hitEnemies b es with
  | some (es', d) => (es', os, d, true)
  | none =>
    match hitObstacles b os with
    | some (os', d) => (es, os', d, true)
    | none => (es, os, 0, false)

/-- Passes 1–2 (lines 641–672): player-owned bullets vs enemies/obstacles,
threading the mutated enemy/obstacle lists and the score; consumed bullets are
dropped from the rebuilt bullet list. -/
def pass12 : List Bullet → List Enemy → List Obstacle → ℚ →
    List Bullet × List Enemy × List Obstacle × ℚ
  | [], es, os, sc => ([], es, os, sc)
  | b :: bs, es, os, sc =>
    if b.from_player then
      let r := processPlayerBullet b es os
      let rest := pass12 bs r.1 r.2.1 (sc + r.2.2.1)
      if r.2.2.2 then rest else (b :: rest.1, rest.2)
    else
      let rest := pass12 bs es os sc
      (b :: rest.1, rest.2)

/-- Pass 3 (lines 674–684): enemy-owned bullets vs the player; a colliding
bullet is always consumed, and damages the player only when unshielded. -/
def pass3 (cfg : Config) : List Bullet → Player → List Bullet × Player
  | [], pl => ([], pl)
  | b :: bs, pl =>
    if !b.from_player && hits b.x b.y b.radius pl.x pl.y pl.radius then
      let pl' := if pl.is_shielded then pl
                 else { pl with health := pl.health - cfg.enemy_bullet_damage }
      pass3 cfg bs pl'
    else
      let r := pass3 cfg bs pl
      (b :: r.1, r.2)

/-- Pass 4 (lines 686–695): obstacles vs the player; a colliding obstacle is
always removed, damaging the player by its own `collision_damage` unless
shielded. -/
def pass4 : List Obstacle → Player → List Obstacle × Player
  | [], pl => ([], pl)
  | o :: os, pl =>
    if hits o.x o.y o.radius pl.x pl.y pl.radius then
      let pl' := if pl.is_shielded then pl
                 else { pl with health := pl.health - o.collision_damage }
      pass4 os pl'
    else
      let r := pass4 os pl
      (o :: r.1, r.2)

/-- Pass 5 (lines 697–707): enemies ramming the player; a colliding enemy is
always removed, damaging the player by `collision_with_enemy_damage` unless
shielded. -/
def pass5 : List Enemy → Player → List Enemy × Player
  | [], pl => ([], pl)
  | e :: es, pl =>
    if hits e.x e.y e.radius pl.x pl.y pl.radius then
      let pl' := if pl.is_shielded then pl
                 else { pl with health := pl.health - pl.collision_with_enemy_damage }
      pass5 es pl'
    else
      let r := pass5 es pl
      (e :: r.1, r.2)

/-- Pass 6 (lines 709–715): health pickups vs the player; on overlap the
health is increased by `restore_amount` then clamped to
`config["player"]["initial_health"]`, and the pickup is removed. -/
def pass6 (cfg : Config) : List HealthPickup → Player → List HealthPickup × Player
  | [], pl => ([], pl)
  | p :: ps, pl =>
    if hits p.x p.y p.radius pl.x pl.y pl.radius then
      let pl' := { pl with health := min (pl.health + p.restore_amount) cfg.initial_health }
      pass6 cfg ps pl'
    else
      let r := pass6 cfg ps pl
      (p :: r.1, r.2)

/-- Pass 7 (lines 717–740): powerups vs the player; a colliding powerup is
applied (`apply_powerup`), a nuke additionally scores 10 per enemy and per
obstacle currently present and clears both collections, and the powerup is
removed. -/
def pass7 (now : ℤ) : List Powerup → Player → List Enemy → List Obstacle → ℚ →
    List Powerup × Player × List Enemy × List Obstacle × ℚ
  | [], pl, es, os, sc => ([], pl, es, os, sc)
  | pw :: pws, pl, es, os, sc =>
    if hits pw.x pw.y pw.radius pl.x pl.y pl.radius then
      let pl' := pl.apply_powerup pw.ptype now pw.duration
      if pw.ptype = PType.nuke then
        pass7 now pws pl' [] [] (sc + 10 * (es.length : ℚ) + 10 * (os.length : ℚ))
      else
        pass7 now pws pl' es os sc
    else
      let r := pass7 now pws pl es os sc
      (pw :: r.1, r.2)

/-- Source `Game.handle_collisions` (lines 636–740): the seven passes in source
order, each reading the collections as mutated by the earlier passes. -/
def handleCollisions (cfg : Config) (now : ℤ) (g : GameState) : GameState :=
  let r12 := pass12 g.bullets g.enemies g.obstacles g.score
  let r3 := pass3 cfg r12.1 g.player
  let r4 := pass4 r12.2.2.1 r3.2
  let r5 := pass5 r12.2.1 r4.2
  let r6 := pass6 cfg g.pickups r5.2
  let r7 := pass7 now g.powerups r6.2 r5.1 r4.1 r12.2.2.2
  { g with
    player := r7.2.1
    bullets := r3.1
    enemies := r7.2.2.1
    obstacles := r7.2.2.2.1
    pickups := r6.1
    powerups := r7.1
    score := r7.2.2.2.2 }

/-! ### The per-frame step (`Game.game_loop`, lines 537–604)

Randomness (spawn contents), the pointer, and the real-valued `hypot`/trig
displacement and bullet velocities enter through a `FrameEnv` oracle; the
cooldown gates, clamps, wave schedule, removals, score and health mutations
are translated from the source. -/

/-- Per-frame nondeterministic inputs: the post-chase player position
(lines 113–123, before clamping), the bullets the player fires when its
cooldown gate opens (lines 154–183), each firing enemy's bullet velocity
(lines 284–287), and the randomized wave spawns (difficulty-indexed for
enemies and obstacles, lines 606–634). -/
structure FrameEnv where
  movedPos : ℚ × ℚ
  firedBullets : List Bullet
  enemyShot : Enemy → ℚ × ℚ
  spawnEnemies : ℤ → List Enemy
  spawnObstacles : ℤ → List Obstacle
  spawnPickups : List HealthPickup
  spawnPowerups : List Powerup

/-- Source `Player.update` (lines 111–127): purge/recompute powerups, chase the
pointer (oracled displacement), then clamp to the playfield inset by the
player radius. -/
def Player.updateFrame (cfg : Config) (now : ℤ) (moved : ℚ × ℚ) (p : Player) : Player :=
  let p1 := p.handle_powerup_expiration cfg now
  { p1 with
    x := max p1.radius (min ((cfg.win_width : ℚ) - p1.radius) moved.1)
    y := max p1.radius (min ((cfg.win_height : ℚ) - p1.radius) moved.2) }

/-- Source `Player.shoot` (lines 146–184): when `now - last_shot_time ≥ fire_delay`,
append the fired bullets (oracled trajectories, always player-owned) and reset
the cooldown reference. -/
def playerShoot (now : ℤ) (fired : List Bullet) (p : Player) (bs : List Bullet) :
    Player × List Bullet :=
  if now - p.last_shot_time ≥ p.fire_delay then
    ({ p with last_shot_time := now },
     bs ++ fired.map (fun b => { b with from_player := true }))
  else (p, bs)

/-- Source `Enemy.update` (lines 278–296): move down by `speed`; when the fire gate
opens, emit one enemy bullet (oracled velocity) and reset the gate. -/
def Enemy.updateFrame (cfg : Config) (now : ℤ) (shot : Enemy → ℚ × ℚ) (e : Enemy) :
    Enemy × List Bullet :=
  let e1 : Enemy := { e with y := e.y + e.speed }
  if now - e1.last_shot_time ≥ e1.fire_delay then
    ({ e1 with last_shot_time := now },
     [{ radius := cfg.bullet_radius, x := e1.x, y := e1.y,
        dx := (shot e1).1, dy := (shot e1).2, from_player := false }])
  else (e1, [])

/-- The enemy-update loop of `game_loop` (lines 570–573): update each enemy
(collecting fired bullets in order), dropping enemies that went off screen. -/
def updateEnemies (cfg : Config) (now : ℤ) (shot : Enemy → ℚ × ℚ) :
    List Enemy → List Enemy × List Bullet
  | [] => ([], [])
  | e :: es =>
    let r := Enemy.updateFrame cfg now shot e
    let rest := updateEnemies cfg now shot es
    (if r.1.off_screen cfg then rest.1 else r.1 :: rest.1, r.2 ++ rest.2)

/-- The phases of `Game.game_loop` before collision resolution
(lines 537–591): player update and shot, passive score, wave schedule and
spawns, entity updates with off-screen removal. -/
def framePre (cfg : Config) (env : FrameEnv) (now : ℤ) (g : GameState) : GameState :=
  let pl1 := Player.updateFrame cfg now env.movedPos g.player
  let shootR := playerShoot now env.firedBullets pl1 g.bullets
  let difficulty := difficultyAt cfg now
  let sc1 := g.score + 3 / 100
  let waveTrigger : Bool := decide (now - g.last_wave_time ≥ g.wave_interval)
  let es1 := if waveTrigger then g.enemies ++ env.spawnEnemies difficulty else g.enemies
  let os1 := if waveTrigger then g.obstacles ++ env.spawnObstacles difficulty else g.obstacles
  let pk1 := if waveTrigger then g.pickups ++ env.spawnPickups else g.pickups
  let pw1 := if waveTrigger then g.powerups ++ env.spawnPowerups else g.powerups
  let lw1 := if waveTrigger then now else g.last_wave_time
  let wi1 := if waveTrigger then
               max g.wave_interval_min (g.wave_interval - g.wave_interval_decrement)
             else g.wave_interval
  let bs2 := (shootR.2.map Bullet.update).filter (fun b => !(b.off_screen cfg))
  let er := updateEnemies cfg now env.enemyShot es1
  let os2 := (os1.map Obstacle.update).filter (fun o => !(o.off_screen cfg))
  let pk2 := (pk1.map HealthPickup.update).filter (fun p => !(p.off_screen cfg))
  let pw2 := (pw1.map Powerup.update).filter (fun p => !(p.off_screen cfg))
  let bs3 := bs2 ++ er.2
  { g with
    player := shootR.1
    bullets := bs3
    enemies := er.1
    obstacles := os2
    pickups := pk2
    powerups := pw2
    score := sc1
    wave_interval := wi1
    last_wave_time := lw1 }

/-- One GAME-state frame (`Game.game_loop`, lines 537–604): the pre-collision
phases, collision resolution, and the terminal health check
(`health <= 0` → GAME_OVER). -/
def gameFrame (cfg : Config) (env : FrameEnv) (now : ℤ) (g : GameState) : GameState :=
  let g2 := handleCollisions cfg now (framePre cfg env now g)
  if g2.player.health ≤ 0 then { g2 with mode := Mode.gameOver } else g2

/-! ### Concrete fixtures for witnesses and counterexamples -/

/-- A concrete configuration with representative tuning values. -/
def cfgA : Config where
  win_width := 800
  win_height := 600
  player_radius := 20
  initial_health := 100
  player_fire_delay_ms := 300
  player_max_speed := 5
  collision_with_enemy_damage := 1
  bullet_radius := 4
  enemy_bullet_damage := 2
  rapid_fire_factor := 1/2
  speed_boost_multiplier := 2
  time_scale_ms := 10000
  wave_interval_start_ms := 5000
  wave_interval_min_ms := 1000
  wave_interval_decrement_ms := 200

/-- The player freshly constructed from `cfgA` at tick 0 (center (400, 300)). -/
def playerA : Player := Player.init cfgA 0

/-- An idle concrete game state in the menu. -/
def gA : GameState where
  mode := Mode.menu
  player := playerA
  bullets := []
  enemies := []
  obstacles := []
  pickups := []
  powerups := []
  score := 0
  wave_interval := 5000
  wave_interval_min := 1000
  wave_interval_decrement := 200
  last_wave_time := 0

/-- An inert frame environment (no spawns, no shots, player stays put). -/
def envA : FrameEnv where
  movedPos := (400, 300)
  firedBullets := []
  enemyShot := fun _ => (0, 0)
  spawnEnemies := fun _ => []
  spawnObstacles := fun _ => []
  spawnPickups := []
  spawnPowerups := []

/-- Iterating `game_loop` frames while the state machine stays in GAME. -/
def runFrames (cfg : Config) : List (FrameEnv × ℤ) → GameState → GameState
  | [], g => g
  | (env, now) :: fs, g => runFrames cfg fs (gameFrame cfg env now g)

/-! ### Theorems -/

/-- Auxiliary: purging an already-purged powerup map at the same clock value
changes nothing. -/
theorem purgeMap_idem (now : ℤ) (f : PType → Option ℤ) :
    purgeMap now (purgeMap now f) = purgeMap now f := by
  funext k
  unfold purgeMap
  cases h : f k with
  | none => simp
  | some e =>
    by_cases he : now ≥ e <;> simp [he]

/-- C9: the per-frame purge-then-recompute step is idempotent: running
`handle_powerup_expiration` once or twice at the same clock time yields the
same player state (in particular the same fire delay and max speed), because
each run resets both stats to base values and reapplies the modifier of every
kind still active. -/
theorem handle_powerup_expiration_idem (cfg : Config) (now : ℤ) (p : Player) :
    (p.handle_powerup_expiration cfg now).handle_powerup_expiration cfg now
      = p.handle_powerup_expiration cfg now := by
  simp only [Player.handle_powerup_expiration, purgeMap_idem]

/-- C6: `apply_powerup` overwrites the stored expiry with `now + duration`
(replace, not additive stacking); in particular a 5000 ms powerup applied at
t = 0 and re-applied at t = 3000 expires at t = 8000, not t = 10000. -/
theorem apply_powerup_replaces (p : Player) (pt : PType) (now dur : ℤ)
    (_h : (p.active_powerups pt).isSome) :
    (p.apply_powerup pt now dur).active_powerups pt = some (now + dur) ∧
    ((p.apply_powerup pt 0 5000).apply_powerup pt 3000 5000).active_powerups pt
      = some 8000 ∧
    (8000 : ℤ) ≠ 10000 := by
  refine ⟨?_, ?_, by decide⟩ <;> simp [Player.apply_powerup]

/-- Witness for C6 at a concrete already-active powerup. -/
theorem apply_powerup_replaces_witness :
    (((playerA.apply_powerup PType.shield 0 9000).active_powerups
        PType.shield).isSome) ∧
    (((playerA.apply_powerup PType.shield 0 9000).apply_powerup PType.shield 3000
        5000).active_powerups PType.shield = some 8000 ∧
      (((playerA.apply_powerup PType.shield 0 9000).apply_powerup PType.shield 0
          5000).apply_powerup PType.shield 3000 5000).active_powerups PType.shield
        = some 8000 ∧
      (8000 : ℤ) ≠ 10000) :=
  ⟨by simp [Player.apply_powerup],
   apply_powerup_replaces (playerA.apply_powerup PType.shield 0 9000) PType.shield
     3000 5000 (by simp [Player.apply_powerup])⟩

/-- C8: off-playfield removal is strict.  A bullet is removed exactly when its
center is strictly outside the playfield on one of the four edges (so a bullet
exactly on a boundary stays); an enemy, obstacle, pickup or powerup is removed
exactly when its y-coordinate strictly exceeds the playfield height plus its
own radius (an entity exactly at that depth stays). -/
theorem off_screen_strict (cfg : Config) (b : Bullet) (e : Enemy) (o : Obstacle)
    (p : HealthPickup) (pw : Powerup) :
    (b.off_screen cfg = true ↔
      (b.x < 0 ∨ b.x > (cfg.win_width : ℚ) ∨ b.y < 0 ∨ b.y > (cfg.win_height : ℚ))) ∧
    (e.off_screen cfg = true ↔ e.y > (cfg.win_height : ℚ) + e.radius) ∧
    (o.off_screen cfg = true ↔ o.y > (cfg.win_height : ℚ) + o.radius) ∧
    (p.off_screen cfg = true ↔ p.y > (cfg.win_height : ℚ) + p.radius) ∧
    (pw.off_screen cfg = true ↔ pw.y > (cfg.win_height : ℚ) + pw.radius) ∧
    (Bullet.off_screen cfgA
      { radius := 4, x := 0, y := 600, dx := 0, dy := 0, from_player := true }
        = false) ∧
    (Enemy.off_screen cfgA
      { radius := 10, x := 100, y := 610, health := 1, fire_delay := 500,
        last_shot_time := 0, speed := 1, difficulty := 0 } = false) := by
  refine ⟨?_, ?_, ?_, ?_, ?_, ?_, ?_⟩
  · simp [Bullet.off_screen, or_assoc]
  · simp [Enemy.off_screen]
  · simp [Obstacle.off_screen]
  · simp [HealthPickup.off_screen]
  · simp [Powerup.off_screen]
  · simp [Bullet.off_screen, cfgA]
  · simp only [Enemy.off_screen, cfgA]
    norm_num

/-- The collision resolver never touches the wave scheduler fields. -/
theorem handleCollisions_wave_fields (cfg : Config) (now : ℤ) (g : GameState) :
    (handleCollisions cfg now g).wave_interval = g.wave_interval ∧
    (handleCollisions cfg now g).wave_interval_min = g.wave_interval_min ∧
    (handleCollisions cfg now g).wave_interval_decrement = g.wave_interval_decrement ∧
    (handleCollisions cfg now g).last_wave_time = g.last_wave_time :=
  ⟨rfl, rfl, rfl, rfl⟩

/-- The terminal health check (lines 596–600) only sets the mode; every other
field passes through unchanged. -/
theorem terminal_check_fields (c : Prop) [Decidable c] (g : GameState) :
    (if c then { g with mode := Mode.gameOver } else g).player = g.player ∧
    (if c then { g with mode := Mode.gameOver } else g).score = g.score ∧
    (if c then { g with mode := Mode.gameOver } else g).wave_interval = g.wave_interval ∧
    (if c then { g with mode := Mode.gameOver } else g).wave_interval_min
      = g.wave_interval_min ∧
    (if c then { g with mode := Mode.gameOver } else g).wave_interval_decrement
      = g.wave_interval_decrement := by
  split <;> simp

/-- What one frame does to the wave interval: on a trigger
(`now - last_wave_time ≥ wave_interval`) it becomes
`max wave_interval_min (wave_interval - wave_interval_decrement)`, otherwise
it is unchanged; the configured minimum and decrement are never modified. -/
theorem gameFrame_wave_eq (cfg : Config) (env : FrameEnv) (now : ℤ) (g : GameState) :
    (gameFrame cfg env now g).wave_interval
      = (if now - g.last_wave_time ≥ g.wave_interval then
           max g.wave_interval_min (g.wave_interval - g.wave_interval_decrement)
         else g.wave_interval) ∧
    (gameFrame cfg env now g).wave_interval_min = g.wave_interval_min ∧
    (gameFrame cfg env now g).wave_interval_decrement = g.wave_interval_decrement := by
  unfold gameFrame
  refine ⟨?_, ?_, ?_⟩
  · rw [(terminal_check_fields _ _).2.2.1, (handleCollisions_wave_fields cfg now _).1]
    simp [framePre]
  · rw [(terminal_check_fields _ _).2.2.2.1,
      (handleCollisions_wave_fields cfg now _).2.1]
    rfl
  · rw [(terminal_check_fields _ _).2.2.2.2,
      (handleCollisions_wave_fields cfg now _).2.2.1]
    rfl

/-- C3: across a GAME session the wave interval is monotonically
non-increasing: a frame that crosses the wave boundary replaces the interval
by `max wave_interval_min (wave_interval - wave_interval_decrement)` (a
decrease by the decrement, floored at the configured minimum), a frame that
does not leaves it unchanged, and over any sequence of frames the interval
never increases and never drops below the configured minimum. -/
theorem wave_interval_monotone (cfg : Config) (env : FrameEnv) (now : ℤ)
    (g : GameState) (fs : List (FrameEnv × ℤ))
    (hmin : g.wave_interval_min ≤ g.wave_interval)
    (hdec : 0 ≤ g.wave_interval_decrement) :
    (now - g.last_wave_time ≥ g.wave_interval →
      (gameFrame cfg env now g).wave_interval
        = max g.wave_interval_min (g.wave_interval - g.wave_interval_decrement)) ∧
    (now - g.last_wave_time < g.wave_interval →
      (gameFrame cfg env now g).wave_interval = g.wave_interval) ∧
    (gameFrame cfg env now g).wave_interval ≤ g.wave_interval ∧
    g.wave_interval_min ≤ (gameFrame cfg env now g).wave_interval ∧
    (runFrames cfg fs g).wave_interval ≤ g.wave_interval ∧
    g.wave_interval_min ≤ (runFrames cfg fs g).wave_interval := by
  have step : ∀ (env' : FrameEnv) (now' : ℤ) (g' : GameState),
      g'.wave_interval_min ≤ g'.wave_interval → 0 ≤ g'.wave_interval_decrement →
      (gameFrame cfg env' now' g').wave_interval ≤ g'.wave_interval ∧
      g'.wave_interval_min ≤ (gameFrame cfg env' now' g').wave_interval := by
    intro env' now' g' hm hd
    rw [(gameFrame_wave_eq cfg env' now' g').1]
    constructor
    · split
      · exact max_le hm (by omega)
      · exact le_refl _
    · split
      · exact le_max_left _ _
      · exact hm
  have trace : ∀ (fs' : List (FrameEnv × ℤ)) (g' : GameState),
      g'.wave_interval_min ≤ g'.wave_interval → 0 ≤ g'.wave_interval_decrement →
      (runFrames cfg fs' g').wave_interval ≤ g'.wave_interval ∧
      g'.wave_interval_min ≤ (runFrames cfg fs' g').wave_interval := by
    intro fs'
    induction fs' with
    | nil => intro g' hm _; exact ⟨le_refl _, hm⟩
    | cons f rest ih =>
      intro g' hm hd
      have hstep := step f.1 f.2 g' hm hd
      have hmin' : (gameFrame cfg f.1 f.2 g').wave_interval_min
          ≤ (gameFrame cfg f.1 f.2 g').wave_interval := by
        rw [(gameFrame_wave_eq cfg f.1 f.2 g').2.1]
        exact hstep.2
      have hdec' : 0 ≤ (gameFrame cfg f.1 f.2 g').wave_interval_decrement := by
        rw [(gameFrame_wave_eq cfg f.1 f.2 g').2.2]
        exact hd
      have hrest := ih (gameFrame cfg f.1 f.2 g') hmin' hdec'
      refine ⟨le_trans ?_ hstep.1, ?_⟩
      · show (runFrames cfg rest (gameFrame cfg f.1 f.2 g')).wave_interval ≤ _
        exact hrest.1
      · show _ ≤ (runFrames cfg rest (gameFrame cfg f.1 f.2 g')).wave_interval
        calc g'.wave_interval_min
            = (gameFrame cfg f.1 f.2 g').wave_interval_min :=
              ((gameFrame_wave_eq cfg f.1 f.2 g').2.1).symm
          _ ≤ _ := hrest.2
  refine ⟨?_, ?_, (step env now g hmin hdec).1, (step env now g hmin hdec).2,
    (trace fs g hmin hdec).1, (trace fs g hmin hdec).2⟩
  · intro h
    rw [(gameFrame_wave_eq cfg env now g).1, if_pos h]
  · intro h
    rw [(gameFrame_wave_eq cfg env now g).1, if_neg (by omega)]

/-- Witness for C3 at a concrete state: a triggering frame (inert environment,
`now = 5000`, last wave at 0, interval 5000) shrinks the interval from 5000 to
4800 and stays above the minimum 1000. -/
theorem wave_interval_monotone_witness :
    gA.wave_interval_min ≤ gA.wave_interval ∧ 0 ≤ gA.wave_interval_decrement ∧
    ((5000 - gA.last_wave_time ≥ gA.wave_interval →
      (gameFrame cfgA envA 5000 gA).wave_interval
        = max gA.wave_interval_min (gA.wave_interval - gA.wave_interval_decrement)) ∧
     (5000 - gA.last_wave_time < gA.wave_interval →
      (gameFrame cfgA envA 5000 gA).wave_interval = gA.wave_interval) ∧
     (gameFrame cfgA envA 5000 gA).wave_interval ≤ gA.wave_interval ∧
     gA.wave_interval_min ≤ (gameFrame cfgA envA 5000 gA).wave_interval ∧
     (runFrames cfgA [(envA, 5000)] gA).wave_interval ≤ gA.wave_interval ∧
     gA.wave_interval_min ≤ (runFrames cfgA [(envA, 5000)] gA).wave_interval) :=
  ⟨by simp [gA], by simp [gA],
   wave_interval_monotone cfgA envA 5000 gA [(envA, 5000)]
     (by simp [gA]) (by simp [gA])⟩

/-- C2 (amended): `startGame` (the MENU→GAME and GAME_OVER→GAME transitions)
performs a full session reset — fresh player, empty collections, score 0,
wave fields re-read from config, wave timer referenced to `now` — but the
difficulty divides the *global* tick clock, which the reset does not touch:
immediately after a reset at tick `t` the difficulty is `t / time_scale`,
not necessarily 0. -/
theorem startGame_resets (cfg : Config) (now : ℤ) (g : GameState) :
    (startGame cfg now g).mode = Mode.game ∧
    (startGame cfg now g).player = Player.init cfg now ∧
    (startGame cfg now g).bullets = [] ∧
    (startGame cfg now g).enemies = [] ∧
    (startGame cfg now g).obstacles = [] ∧
    (startGame cfg now g).pickups = [] ∧
    (startGame cfg now g).powerups = [] ∧
    (startGame cfg now g).score = 0 ∧
    (startGame cfg now g).wave_interval = cfg.wave_interval_start_ms ∧
    (startGame cfg now g).last_wave_time = now ∧
    difficultyAt cfg now = now / cfg.time_scale_ms :=
  ⟨rfl, rfl, rfl, rfl, rfl, rfl, rfl, rfl, rfl, rfl, rfl⟩

/-- Counterexample for C2 as stated: restarting at global tick 25000 with
`time_scale_ms = 10000` leaves score 0 and empty collections, yet the
difficulty the very next frame computes is `25000 // 10000 = 2`, not
`floor(0 / time_scale) = 0`. -/
theorem startGame_difficulty_not_zero :
    (startGame cfgA 25000 gA).score = 0 ∧
    (startGame cfgA 25000 gA).enemies = [] ∧
    (startGame cfgA 25000 gA).last_wave_time = 25000 ∧
    difficultyAt cfgA 25000 = 2 ∧ (2 : ℤ) ≠ 0 := by
  refine ⟨rfl, rfl, rfl, ?_, by decide⟩
  decide

/-! ### Lemmas about the bullet-vs-enemy and bullet-vs-obstacle scans -/

/-- The enemy scan misses exactly when no enemy overlaps the bullet. -/
theorem hitEnemies_none_iff (b : Bullet) (es : List Enemy) :
    hitEnemies b es = none
      ↔ ∀ e ∈ es, hits b.x b.y b.radius e.x e.y e.radius = false := by
  induction es with
  | nil => simp [hitEnemies]
  | cons e es ih =>
    unfold hitEnemies
    by_cases he : hits b.x b.y b.radius e.x e.y e.radius = true
    · simp only [he, if_true]
      constructor
      · intro h
        split at h <;> exact absurd h (by simp)
      · intro h
        exact absurd he (by simp [h e (List.mem_cons_self e es)])
    · rw [if_neg (by simpa using he)]
      constructor
      · intro h x hx
        rcases List.mem_cons.mp hx with rfl | hx'
        · simpa using he
        · cases hcall : hitEnemies b es with
          | none => exact (ih.mp hcall) x hx'
          | some v => rw [hcall] at h; exact absurd h (by simp)
      · intro h
        have : hitEnemies b es = none :=
          ih.mpr (fun x hx => h x (List.mem_cons_of_mem e hx))
        rw [this]

/-- The enemy scan stops at the first overlapping enemy: a missing prefix is
kept intact, the first hit is damaged in place (or removed with a 10-point
score delta when its health reaches 0), and the suffix is never examined. -/
theorem hitEnemies_append (b : Bullet) (es₁ : List Enemy) (e : Enemy)
    (es₂ : List Enemy)
    (h₁ : ∀ x ∈ es₁, hits b.x b.y b.radius x.x x.y x.radius = false)
    (he : hits b.x b.y b.radius e.x e.y e.radius = true) :
    hitEnemies b (es₁ ++ e :: es₂)
      = some (if e.health - 1 ≤ 0 then es₁ ++ es₂
              else es₁ ++ { e with health := e.health - 1 } :: es₂,
             if e.health - 1 ≤ 0 then 10 else 0) := by
  induction es₁ with
  | nil =>
    simp only [List.nil_append]
    unfold hitEnemies
    rw [if_pos he]
    split <;> simp_all
  | cons x es₁ ih =>
    have hx : hits b.x b.y b.radius x.x x.y x.radius = false :=
      h₁ x (List.mem_cons_self x es₁)
    have ih' := ih (fun y hy => h₁ y (List.mem_cons_of_mem x hy))
    simp only [List.cons_append]
    unfold hitEnemies
    rw [if_neg (by simp [hx]), ih']
    by_cases hc : e.health - 1 ≤ 0
    · simp only [if_pos hc]
    · simp only [if_neg hc]

/-- The score delta of the enemy scan is 0 or 10. -/
theorem hitEnemies_delta (b : Bullet) (es : List Enemy) (es' : List Enemy) (d : ℚ)
    (h : hitEnemies b es = some (es', d)) : d = 0 ∨ d = 10 := by
  induction es generalizing es' d with
  | nil => simp [hitEnemies] at h
  | cons e es ih =>
    unfold hitEnemies at h
    split at h
    · simp only [] at h
      split at h
      · right
        simp only [Option.some.injEq, Prod.mk.injEq] at h
        exact h.2.symm
      · left
        simp only [Option.some.injEq, Prod.mk.injEq] at h
        exact h.2.symm
    · cases hcall : hitEnemies b es with
      | none => rw [hcall] at h; simp at h
      | some v =>
        obtain ⟨vs, vd⟩ := v
        rw [hcall] at h
        simp only [Option.some.injEq, Prod.mk.injEq] at h
        rcases ih vs vd hcall with h0 | h10
        · left; rw [← h.2, h0]
        · right; rw [← h.2, h10]

/-- The obstacle scan misses exactly when no obstacle overlaps the bullet. -/
theorem hitObstacles_none_iff (b : Bullet) (os : List Obstacle) :
    hitObstacles b os = none
      ↔ ∀ o ∈ os, hits b.x b.y b.radius o.x o.y o.radius = false := by
  induction os with
  | nil => simp [hitObstacles]
  | cons o os ih =>
    unfold hitObstacles
    by_cases ho : hits b.x b.y b.radius o.x o.y o.radius = true
    · simp only [ho, if_true]
      constructor
      · intro h
        split at h <;> exact absurd h (by simp)
      · intro h
        exact absurd ho (by simp [h o (List.mem_cons_self o os)])
    · rw [if_neg (by simpa using ho)]
      constructor
      · intro h x hx
        rcases List.mem_cons.mp hx with rfl | hx'
        · simpa using ho
        · cases hcall : hitObstacles b os with
          | none => exact (ih.mp hcall) x hx'
          | some v => rw [hcall] at h; exact absurd h (by simp)
      · intro h
        have : hitObstacles b os = none :=
          ih.mpr (fun x hx => h x (List.mem_cons_of_mem o hx))
        rw [this]

/-- The obstacle scan stops at the first overlapping obstacle, damaging it in
place or removing it (scoring 10) when its health reaches 0. -/
theorem hitObstacles_append (b : Bullet) (os₁ : List Obstacle) (o : Obstacle)
    (os₂ : List Obstacle)
    (h₁ : ∀ x ∈ os₁, hits b.x b.y b.radius x.x x.y x.radius = false)
    (ho : hits b.x b.y b.radius o.x o.y o.radius = true) :
    hitObstacles b (os₁ ++ o :: os₂)
      = some (if o.health - 1 ≤ 0 then os₁ ++ os₂
              else os₁ ++ { o with health := o.health - 1 } :: os₂,
             if o.health - 1 ≤ 0 then 10 else 0) := by
  induction os₁ with
  | nil =>
    simp only [List.nil_append]
    unfold hitObstacles
    rw [if_pos ho]
    split <;> simp_all
  | cons x os₁ ih =>
    have hx : hits b.x b.y b.radius x.x x.y x.radius = false :=
      h₁ x (List.mem_cons_self x os₁)
    have ih' := ih (fun y hy => h₁ y (List.mem_cons_of_mem x hy))
    simp only [List.cons_append]
    unfold hitObstacles
    rw [if_neg (by simp [hx]), ih']
    by_cases hc : o.health - 1 ≤ 0
    · simp only [if_pos hc]
    · simp only [if_neg hc]

/-- The score delta of the obstacle scan is 0 or 10. -/
theorem hitObstacles_delta (b : Bullet) (os : List Obstacle) (os' : List Obstacle)
    (d : ℚ) (h : hitObstacles b os = some (os', d)) : d = 0 ∨ d = 10 := by
  induction os generalizing os' d with
  | nil => simp [hitObstacles] at h
  | cons o os ih =>
    unfold hitObstacles at h
    split at h
    · simp only [] at h
      split at h
      · right
        simp only [Option.some.injEq, Prod.mk.injEq] at h
        exact h.2.symm
      · left
        simp only [Option.some.injEq, Prod.mk.injEq] at h
        exact h.2.symm
    · cases hcall : hitObstacles b os with
      | none => rw [hcall] at h; simp at h
      | some v =>
        obtain ⟨vs, vd⟩ := v
        rw [hcall] at h
        simp only [Option.some.injEq, Prod.mk.injEq] at h
        rcases ih vs vd hcall with h0 | h10
        · left; rw [← h.2, h0]
        · right; rw [← h.2, h10]

/-- Every obstacle surviving the scan keeps the `collision_damage` of some
input obstacle (the scan only decrements health or removes). -/
theorem hitObstacles_damage_source (b : Bullet) (os : List Obstacle)
    (os' : List Obstacle) (d : ℚ) (h : hitObstacles b os = some (os', d)) :
    ∀ x ∈ os', ∃ o ∈ os, x.collision_damage = o.collision_damage := by
  induction os generalizing os' d with
  | nil => simp [hitObstacles] at h
  | cons o os ih =>
    unfold hitObstacles at h
    split at h
    · simp only [] at h
      split at h
      · simp only [Option.some.injEq, Prod.mk.injEq] at h
        intro x hx
        exact ⟨x, List.mem_cons_of_mem o (h.1 ▸ hx), rfl⟩
      · simp only [Option.some.injEq, Prod.mk.injEq] at h
        intro x hx
        rw [← h.1] at hx
        rcases List.mem_cons.mp hx with rfl | hx'
        · exact ⟨o, List.mem_cons_self o os, rfl⟩
        · exact ⟨x, List.mem_cons_of_mem o hx', rfl⟩
    · cases hcall : hitObstacles b os with
      | none => rw [hcall] at h; simp at h
      | some v =>
        obtain ⟨vs, vd⟩ := v
        rw [hcall] at h
        simp only [Option.some.injEq, Prod.mk.injEq] at h
        intro x hx
        rw [← h.1] at hx
        rcases List.mem_cons.mp hx with rfl | hx'
        · exact ⟨x, List.mem_cons_self x os, rfl⟩
        · obtain ⟨o', ho', he'⟩ := ih vs vd hcall x hx'
          exact ⟨o', List.mem_cons_of_mem o ho', he'⟩

/-- The score delta of one player bullet is 0 or 10. -/
theorem processPlayerBullet_delta (b : Bullet) (es : List Enemy)
    (os : List Obstacle) :
    (processPlayerBullet b es os).2.2.1 = 0 ∨ (processPlayerBullet b es os).2.2.1 = 10 := by
  unfold processPlayerBullet
  cases he : hitEnemies b es with
  | some v =>
    obtain ⟨vs, vd⟩ := v
    simpa using hitEnemies_delta b es vs vd he
  | none =>
    cases ho : hitObstacles b os with
    | some w =>
      obtain ⟨ws, wd⟩ := w
      simpa using hitObstacles_delta b os ws wd ho
    | none => simp

/-- Obstacles surviving one player bullet keep an input obstacle's damage. -/
theorem processPlayerBullet_obstacle_source (b : Bullet) (es : List Enemy)
    (os : List Obstacle) :
    ∀ x ∈ (processPlayerBullet b es os).2.1,
      ∃ o ∈ os, x.collision_damage = o.collision_damage := by
  unfold processPlayerBullet
  cases he : hitEnemies b es with
  | some v =>
    obtain ⟨vs, vd⟩ := v
    intro x hx
    exact ⟨x, by simpa using hx, rfl⟩
  | none =>
    cases ho : hitObstacles b os with
    | some w =>
      obtain ⟨ws, wd⟩ := w
      intro x hx
      exact hitObstacles_damage_source b os ws wd ho x (by simpa using hx)
    | none =>
      intro x hx
      exact ⟨x, by simpa using hx, rfl⟩

/-- Passes 1–2 only ever delete bullets: the surviving bullet list is a
sublist of the input (no duplication, no re-insertion), so a bullet consumed
in pass 1 or 2 is absent from the list passes 3+ iterate. -/
theorem pass12_bullets_sublist (bs : List Bullet) (es : List Enemy)
    (os : List Obstacle) (sc : ℚ) : (pass12 bs es os sc).1.Sublist bs := by
  induction bs generalizing es os sc with
  | nil => simp [pass12]
  | cons b bs ih =>
    unfold pass12
    by_cases hp : b.from_player
    · rw [if_pos hp]
      cases hc : (processPlayerBullet b es os).2.2.2 with
      | true =>
        simp only [hc, if_pos]
        exact (ih _ _ _).cons b
      | false =>
        simp only [hc, Bool.false_eq_true, if_neg]
        exact (ih _ _ _).cons₂ b
    · rw [if_neg hp]
      exact (ih _ _ _).cons₂ b

/-- Passes 1–2 only add score in increments of 10 (one per destroyed
enemy/obstacle). -/
theorem pass12_score (bs : List Bullet) (es : List Enemy) (os : List Obstacle)
    (sc : ℚ) : ∃ k : ℕ, (pass12 bs es os sc).2.2.2 = sc + 10 * k := by
  induction bs generalizing es os sc with
  | nil => exact ⟨0, by simp [pass12]⟩
  | cons b bs ih =>
    unfold pass12
    by_cases hp : b.from_player
    · rw [if_pos hp]
      obtain ⟨k, hk⟩ := ih (processPlayerBullet b es os).1
        (processPlayerBullet b es os).2.1 (sc + (processPlayerBullet b es os).2.2.1)
      have hrw : ∀ c : Bool,
          ((if c = true then
              pass12 bs (processPlayerBullet b es os).1
                (processPlayerBullet b es os).2.1
                (sc + (processPlayerBullet b es os).2.2.1)
            else
              (b :: (pass12 bs (processPlayerBullet b es os).1
                (processPlayerBullet b es os).2.1
                (sc + (processPlayerBullet b es os).2.2.1)).1,
               (pass12 bs (processPlayerBullet b es os).1
                (processPlayerBullet b es os).2.1
                (sc + (processPlayerBullet b es os).2.2.1)).2)).2.2.2)
          = (pass12 bs (processPlayerBullet b es os).1
              (processPlayerBullet b es os).2.1
              (sc + (processPlayerBullet b es os).2.2.1)).2.2.2 := by
        intro c; cases c <;> simp
      rw [hrw]
      rcases processPlayerBullet_delta b es os with hd | hd
      · exact ⟨k, by rw [hk, hd]; ring⟩
      · refine ⟨k + 1, ?_⟩
        rw [hk, hd]
        push_cast
        ring
    · rw [if_neg hp]
      obtain ⟨k, hk⟩ := ih es os sc
      exact ⟨k, hk⟩

/-- Obstacles surviving passes 1–2 keep an input obstacle's damage value. -/
theorem pass12_obstacle_source (bs : List Bullet) (es : List Enemy)
    (os : List Obstacle) (sc : ℚ) :
    ∀ x ∈ (pass12 bs es os sc).2.2.1,
      ∃ o ∈ os, x.collision_damage = o.collision_damage := by
  induction bs generalizing es os sc with
  | nil =>
    intro x hx
    exact ⟨x, by simpa [pass12] using hx, rfl⟩
  | cons b bs ih =>
    unfold pass12
    by_cases hp : b.from_player
    · rw [if_pos hp]
      intro x hx
      have hx' : x ∈ (pass12 bs (processPlayerBullet b es os).1
          (processPlayerBullet b es os).2.1
          (sc + (processPlayerBullet b es os).2.2.1)).2.2.1 := by
        cases hc : (processPlayerBullet b es os).2.2.2 <;> simp [hc] at hx <;>
          exact hx
      obtain ⟨o, ho, he⟩ := ih _ _ _ x hx'
      obtain ⟨o₀, ho₀, he₀⟩ := processPlayerBullet_obstacle_source b es os o ho
      exact ⟨o₀, ho₀, he.trans he₀⟩
    · rw [if_neg hp]
      intro x hx
      exact ih _ _ _ x hx

/-! ### Lemmas about passes 3–7 -/

/-- Pass 3 keeps exactly the bullets that are not colliding enemy bullets
(collision geometry does not depend on the player's mutating health), touches
no player field except `health`, and leaves a shielded player unchanged. -/
theorem pass3_char (cfg : Config) (bs : List Bullet) (pl : Player) :
    (pass3 cfg bs pl).1
      = bs.filter
          (fun b => !(!b.from_player && hits b.x b.y b.radius pl.x pl.y pl.radius)) ∧
    (pass3 cfg bs pl).2.x = pl.x ∧
    (pass3 cfg bs pl).2.y = pl.y ∧
    (pass3 cfg bs pl).2.radius = pl.radius ∧
    (pass3 cfg bs pl).2.collision_with_enemy_damage
      = pl.collision_with_enemy_damage ∧
    (pass3 cfg bs pl).2.active_powerups = pl.active_powerups ∧
    (pl.is_shielded = true → (pass3 cfg bs pl).2 = pl) := by
  induction bs generalizing pl with
  | nil => exact ⟨rfl, rfl, rfl, rfl, rfl, rfl, fun _ => rfl⟩
  | cons b bs ih =>
    unfold pass3
    by_cases hcond :
        (!b.from_player && hits b.x b.y b.radius pl.x pl.y pl.radius) = true
    · rw [if_pos hcond]
      by_cases hs : pl.is_shielded = true
      · rw [if_pos hs]
        obtain ⟨h1, h2, h3, h4, h5, h6, h7⟩ := ih pl
        exact ⟨by rw [h1, List.filter_cons_of_neg (by simp [hcond])],
          h2, h3, h4, h5, h6, h7⟩
      · rw [if_neg hs]
        obtain ⟨h1, h2, h3, h4, h5, h6, _⟩ :=
          ih { pl with health := pl.health - cfg.enemy_bullet_damage }
        exact ⟨by rw [h1, List.filter_cons_of_neg (by simp [hcond])],
          h2, h3, h4, h5, h6, fun h => absurd h hs⟩
    · rw [if_neg hcond]
      obtain ⟨h1, h2, h3, h4, h5, h6, h7⟩ := ih pl
      refine ⟨?_, h2, h3, h4, h5, h6, h7⟩
      show _ :: _ = _
      rw [List.filter_cons_of_pos (by simp only [Bool.not_eq_true] at hcond; simp [hcond]),
        h1]

/-- Pass 3 never increases damage taken: with a nonnegative configured
enemy-bullet damage the player's health cannot rise. -/
theorem pass3_health_le (cfg : Config) (bs : List Bullet) (pl : Player)
    (hd : 0 ≤ cfg.enemy_bullet_damage) :
    (pass3 cfg bs pl).2.health ≤ pl.health := by
  induction bs generalizing pl with
  | nil => exact le_refl _
  | cons b bs ih =>
    unfold pass3
    by_cases hcond :
        (!b.from_player && hits b.x b.y b.radius pl.x pl.y pl.radius) = true
    · rw [if_pos hcond]
      by_cases hs : pl.is_shielded = true
      · rw [if_pos hs]; exact ih pl
      · rw [if_neg hs]
        calc (pass3 cfg bs { pl with health := pl.health - cfg.enemy_bullet_damage }).2.health
            ≤ pl.health - cfg.enemy_bullet_damage :=
              ih { pl with health := pl.health - cfg.enemy_bullet_damage }
          _ ≤ pl.health := by linarith
    · rw [if_neg hcond]
      exact ih pl

/-- Pass 4 removes exactly the colliding obstacles, touches no player field
except `health`, and leaves a shielded player unchanged. -/
theorem pass4_char (os : List Obstacle) (pl : Player) :
    (pass4 os pl).1
      = os.filter (fun o => !(hits o.x o.y o.radius pl.x pl.y pl.radius)) ∧
    (pass4 os pl).2.x = pl.x ∧
    (pass4 os pl).2.y = pl.y ∧
    (pass4 os pl).2.radius = pl.radius ∧
    (pass4 os pl).2.collision_with_enemy_damage = pl.collision_with_enemy_damage ∧
    (pass4 os pl).2.active_powerups = pl.active_powerups ∧
    (pl.is_shielded = true → (pass4 os pl).2 = pl) := by
  induction os generalizing pl with
  | nil => exact ⟨rfl, rfl, rfl, rfl, rfl, rfl, fun _ => rfl⟩
  | cons o os ih =>
    unfold pass4
    by_cases hcond : hits o.x o.y o.radius pl.x pl.y pl.radius = true
    · rw [if_pos hcond]
      by_cases hs : pl.is_shielded = true
      · rw [if_pos hs]
        obtain ⟨h1, h2, h3, h4, h5, h6, h7⟩ := ih pl
        exact ⟨by rw [h1, List.filter_cons_of_neg (by simp [hcond])],
          h2, h3, h4, h5, h6, h7⟩
      · rw [if_neg hs]
        obtain ⟨h1, h2, h3, h4, h5, h6, _⟩ :=
          ih { pl with health := pl.health - o.collision_damage }
        exact ⟨by rw [h1, List.filter_cons_of_neg (by simp [hcond])],
          h2, h3, h4, h5, h6, fun h => absurd h hs⟩
    · rw [if_neg hcond]
      obtain ⟨h1, h2, h3, h4, h5, h6, h7⟩ := ih pl
      refine ⟨?_, h2, h3, h4, h5, h6, h7⟩
      show _ :: _ = _
      rw [List.filter_cons_of_pos (by simp only [Bool.not_eq_true] at hcond; simp [hcond]),
        h1]

/-- Pass 4 never raises the player's health when every obstacle's configured
collision damage is nonnegative. -/
theorem pass4_health_le (os : List Obstacle) (pl : Player)
    (hd : ∀ o ∈ os, 0 ≤ o.collision_damage) :
    (pass4 os pl).2.health ≤ pl.health := by
  induction os generalizing pl with
  | nil => exact le_refl _
  | cons o os ih =>
    unfold pass4
    by_cases hcond : hits o.x o.y o.radius pl.x pl.y pl.radius = true
    · rw [if_pos hcond]
      by_cases hs : pl.is_shielded = true
      · rw [if_pos hs]
        exact ih pl (fun x hx => hd x (List.mem_cons_of_mem o hx))
      · rw [if_neg hs]
        have h0 : 0 ≤ o.collision_damage := hd o (List.mem_cons_self o os)
        calc (pass4 os { pl with health := pl.health - o.collision_damage }).2.health
            ≤ pl.health - o.collision_damage :=
              ih { pl with health := pl.health - o.collision_damage }
                (fun x hx => hd x (List.mem_cons_of_mem o hx))
          _ ≤ pl.health := by linarith
    · rw [if_neg hcond]
      exact ih pl (fun x hx => hd x (List.mem_cons_of_mem o hx))

/-- Pass 5 removes exactly the colliding (ramming) enemies, touches no player
field except `health`, and leaves a shielded player unchanged. -/
theorem pass5_char (es : List Enemy) (pl : Player) :
    (pass5 es pl).1
      = es.filter (fun e => !(hits e.x e.y e.radius pl.x pl.y pl.radius)) ∧
    (pass5 es pl).2.x = pl.x ∧
    (pass5 es pl).2.y = pl.y ∧
    (pass5 es pl).2.radius = pl.radius ∧
    (pass5 es pl).2.collision_with_enemy_damage = pl.collision_with_enemy_damage ∧
    (pass5 es pl).2.active_powerups = pl.active_powerups ∧
    (pl.is_shielded = true → (pass5 es pl).2 = pl) := by
  induction es generalizing pl with
  | nil => exact ⟨rfl, rfl, rfl, rfl, rfl, rfl, fun _ => rfl⟩
  | cons e es ih =>
    unfold pass5
    by_cases hcond : hits e.x e.y e.radius pl.x pl.y pl.radius = true
    · rw [if_pos hcond]
      by_cases hs : pl.is_shielded = true
      · rw [if_pos hs]
        obtain ⟨h1, h2, h3, h4, h5, h6, h7⟩ := ih pl
        exact ⟨by rw [h1, List.filter_cons_of_neg (by simp [hcond])],
          h2, h3, h4, h5, h6, h7⟩
      · rw [if_neg hs]
        obtain ⟨h1, h2, h3, h4, h5, h6, _⟩ :=
          ih { pl with health := pl.health - pl.collision_with_enemy_damage }
        exact ⟨by rw [h1, List.filter_cons_of_neg (by simp [hcond])],
          h2, h3, h4, h5, h6, fun h => absurd h hs⟩
    · rw [if_neg hcond]
      obtain ⟨h1, h2, h3, h4, h5, h6, h7⟩ := ih pl
      refine ⟨?_, h2, h3, h4, h5, h6, h7⟩
      show _ :: _ = _
      rw [List.filter_cons_of_pos (by simp only [Bool.not_eq_true] at hcond; simp [hcond]),
        h1]

/-- Pass 5 never raises the player's health when the configured ramming
damage is nonnegative. -/
theorem pass5_health_le (es : List Enemy) (pl : Player)
    (hd : 0 ≤ pl.collision_with_enemy_damage) :
    (pass5 es pl).2.health ≤ pl.health := by
  induction es generalizing pl with
  | nil => exact le_refl _
  | cons e es ih =>
    unfold pass5
    by_cases hcond : hits e.x e.y e.radius pl.x pl.y pl.radius = true
    · rw [if_pos hcond]
      by_cases hs : pl.is_shielded = true
      · rw [if_pos hs]; exact ih pl hd
      · rw [if_neg hs]
        calc (pass5 es { pl with health := pl.health - pl.collision_with_enemy_damage }).2.health
            ≤ pl.health - pl.collision_with_enemy_damage :=
              ih { pl with health := pl.health - pl.collision_with_enemy_damage } hd
          _ ≤ pl.health := by linarith
    · rw [if_neg hcond]
      exact ih pl hd

/-- Pass 6 touches no player field except `health`. -/
theorem pass6_fields (cfg : Config) (ps : List HealthPickup) (pl : Player) :
    (pass6 cfg ps pl).2.x = pl.x ∧
    (pass6 cfg ps pl).2.y = pl.y ∧
    (pass6 cfg ps pl).2.radius = pl.radius ∧
    (pass6 cfg ps pl).2.collision_with_enemy_damage = pl.collision_with_enemy_damage ∧
    (pass6 cfg ps pl).2.active_powerups = pl.active_powerups := by
  induction ps generalizing pl with
  | nil => exact ⟨rfl, rfl, rfl, rfl, rfl⟩
  | cons p ps ih =>
    unfold pass6
    by_cases hcond : hits p.x p.y p.radius pl.x pl.y pl.radius = true
    · rw [if_pos hcond]
      exact ih _
    · rw [if_neg hcond]
      exact ih pl

/-- Pass 6 keeps the health at most `initial_health` (the pickup clamp), and
with nonnegative restore amounts it never lowers it. -/
theorem pass6_health_bounds (cfg : Config) (ps : List HealthPickup) (pl : Player)
    (hmax : pl.health ≤ cfg.initial_health) :
    (pass6 cfg ps pl).2.health ≤ cfg.initial_health ∧
    ((∀ p ∈ ps, 0 ≤ p.restore_amount) → pl.health ≤ (pass6 cfg ps pl).2.health) := by
  induction ps generalizing pl with
  | nil => exact ⟨hmax, fun _ => le_refl _⟩
  | cons p ps ih =>
    unfold pass6
    by_cases hcond : hits p.x p.y p.radius pl.x pl.y pl.radius = true
    · rw [if_pos hcond]
      have hmax' :
          ({ pl with health := min (pl.health + p.restore_amount) cfg.initial_health } :
            Player).health ≤ cfg.initial_health := min_le_right _ _
      obtain ⟨hup, hlo⟩ := ih _ hmax'
      refine ⟨hup, fun hr => ?_⟩
      have h0 : 0 ≤ p.restore_amount := hr p (List.mem_cons_self p ps)
      have hmem : pl.health ≤ min (pl.health + p.restore_amount) cfg.initial_health :=
        le_min (by linarith) hmax
      exact le_trans hmem (hlo (fun x hx => hr x (List.mem_cons_of_mem p hx)))
    · rw [if_neg hcond]
      obtain ⟨hup, hlo⟩ := ih pl hmax
      exact ⟨hup, fun hr => hlo (fun x hx => hr x (List.mem_cons_of_mem p hx))⟩

/-- Pass 7 only rewrites the player's powerup map: health, position and
radius are untouched. -/
theorem pass7_player_fields (now : ℤ) (pws : List Powerup) (pl : Player)
    (es : List Enemy) (os : List Obstacle) (sc : ℚ) :
    (pass7 now pws pl es os sc).2.1.health = pl.health ∧
    (pass7 now pws pl es os sc).2.1.x = pl.x ∧
    (pass7 now pws pl es os sc).2.1.y = pl.y ∧
    (pass7 now pws pl es os sc).2.1.radius = pl.radius := by
  induction pws generalizing pl es os sc with
  | nil => exact ⟨rfl, rfl, rfl, rfl⟩
  | cons pw pws ih =>
    unfold pass7
    by_cases hcond : hits pw.x pw.y pw.radius pl.x pl.y pl.radius = true
    · rw [if_pos hcond]
      by_cases hn : pw.ptype = PType.nuke
      · rw [if_pos hn]; exact ih _ _ _ _
      · rw [if_neg hn]; exact ih _ _ _ _
    · rw [if_neg hcond]
      exact ih pl es os sc

/-- Every enemy surviving pass 7 was already in its input list (pass 7 only
clears or preserves the enemy collection). -/
theorem pass7_enemies_sub (now : ℤ) (pws : List Powerup) (pl : Player)
    (es : List Enemy) (os : List Obstacle) (sc : ℚ) :
    ∀ x ∈ (pass7 now pws pl es os sc).2.2.1, x ∈ es := by
  induction pws generalizing pl es os sc with
  | nil => intro x hx; simpa [pass7] using hx
  | cons pw pws ih =>
    unfold pass7
    by_cases hcond : hits pw.x pw.y pw.radius pl.x pl.y pl.radius = true
    · rw [if_pos hcond]
      by_cases hn : pw.ptype = PType.nuke
      · rw [if_pos hn]
        intro x hx
        exact absurd (ih _ _ _ _ x hx) (List.not_mem_nil x)
      · rw [if_neg hn]
        exact ih _ _ _ _
    · rw [if_neg hcond]
      exact ih pl es os sc

/-- Every obstacle surviving pass 7 was already in its input list. -/
theorem pass7_obstacles_sub (now : ℤ) (pws : List Powerup) (pl : Player)
    (es : List Enemy) (os : List Obstacle) (sc : ℚ) :
    ∀ x ∈ (pass7 now pws pl es os sc).2.2.2.1, x ∈ os := by
  induction pws generalizing pl es os sc with
  | nil => intro x hx; simpa [pass7] using hx
  | cons pw pws ih =>
    unfold pass7
    by_cases hcond : hits pw.x pw.y pw.radius pl.x pl.y pl.radius = true
    · rw [if_pos hcond]
      by_cases hn : pw.ptype = PType.nuke
      · rw [if_pos hn]
        intro x hx
        exact absurd (ih _ _ _ _ x hx) (List.not_mem_nil x)
      · rw [if_neg hn]
        exact ih _ _ _ _
    · rw [if_neg hcond]
      exact ih pl es os sc

/-- Pass 7 only adds score in increments of 10 (nuke awards). -/
theorem pass7_score (now : ℤ) (pws : List Powerup) (pl : Player)
    (es : List Enemy) (os : List Obstacle) (sc : ℚ) :
    ∃ k : ℕ, (pass7 now pws pl es os sc).2.2.2.2 = sc + 10 * k := by
  induction pws generalizing pl es os sc with
  | nil => exact ⟨0, by simp [pass7]⟩
  | cons pw pws ih =>
    unfold pass7
    by_cases hcond : hits pw.x pw.y pw.radius pl.x pl.y pl.radius = true
    · rw [if_pos hcond]
      by_cases hn : pw.ptype = PType.nuke
      · rw [if_pos hn]
        obtain ⟨k, hk⟩ := ih (pl.apply_powerup pw.ptype now pw.duration) [] []
          (sc + 10 * (es.length : ℚ) + 10 * (os.length : ℚ))
        refine ⟨es.length + os.length + k, ?_⟩
        rw [hk]
        push_cast
        ring
      · rw [if_neg hn]
        exact ih _ _ _ _
    · rw [if_neg hcond]
      exact ih pl es os sc

/-! ### Claim-level theorems about the collision resolver and the frame -/

/-- Abbreviation: the pass 1–2 result inside `handleCollisions`. -/
def hcR12 (g : GameState) : List Bullet × List Enemy × List Obstacle × ℚ :=
  pass12 g.bullets g.enemies g.obstacles g.score

/-- Abbreviation: the pass 3 result inside `handleCollisions`. -/
def hcR3 (cfg : Config) (g : GameState) : List Bullet × Player :=
  pass3 cfg (hcR12 g).1 g.player

/-- Abbreviation: the pass 4 result inside `handleCollisions`. -/
def hcR4 (cfg : Config) (g : GameState) : List Obstacle × Player :=
  pass4 (hcR12 g).2.2.1 (hcR3 cfg g).2

/-- Abbreviation: the pass 5 result inside `handleCollisions`. -/
def hcR5 (cfg : Config) (g : GameState) : List Enemy × Player :=
  pass5 (hcR12 g).2.1 (hcR4 cfg g).2

/-- Abbreviation: the pass 6 result inside `handleCollisions`. -/
def hcR6 (cfg : Config) (g : GameState) : List HealthPickup × Player :=
  pass6 cfg g.pickups (hcR5 cfg g).2

/-- Abbreviation: the pass 7 result inside `handleCollisions`. -/
def hcR7 (cfg : Config) (now : ℤ) (g : GameState) :
    List Powerup × Player × List Enemy × List Obstacle × ℚ :=
  pass7 now g.powerups (hcR6 cfg g).2 (hcR5 cfg g).1 (hcR4 cfg g).1 (hcR12 g).2.2.2

/-- Source `handleCollisions` is literally the seven passes chained in source order. -/
theorem handleCollisions_proj (cfg : Config) (now : ℤ) (g : GameState) :
    (handleCollisions cfg now g).player = (hcR7 cfg now g).2.1 ∧
    (handleCollisions cfg now g).bullets = (hcR3 cfg g).1 ∧
    (handleCollisions cfg now g).enemies = (hcR7 cfg now g).2.2.1 ∧
    (handleCollisions cfg now g).obstacles = (hcR7 cfg now g).2.2.2.1 ∧
    (handleCollisions cfg now g).pickups = (hcR6 cfg g).1 ∧
    (handleCollisions cfg now g).powerups = (hcR7 cfg now g).1 ∧
    (handleCollisions cfg now g).score = (hcR7 cfg now g).2.2.2.2 :=
  ⟨rfl, rfl, rfl, rfl, rfl, rfl, rfl⟩

/-- The collision resolver only ever adds score, in increments of 10. -/
theorem handleCollisions_score (cfg : Config) (now : ℤ) (g : GameState) :
    ∃ k : ℕ, (handleCollisions cfg now g).score = g.score + 10 * k := by
  obtain ⟨k1, h1⟩ := pass12_score g.bullets g.enemies g.obstacles g.score
  obtain ⟨k2, h2⟩ := pass7_score now g.powerups
    (pass6 cfg g.pickups
      (pass5 (pass12 g.bullets g.enemies g.obstacles g.score).2.1
        (pass4 (pass12 g.bullets g.enemies g.obstacles g.score).2.2.1
          (pass3 cfg (pass12 g.bullets g.enemies g.obstacles g.score).1
            g.player).2).2).2).2
    (pass5 (pass12 g.bullets g.enemies g.obstacles g.score).2.1
      (pass4 (pass12 g.bullets g.enemies g.obstacles g.score).2.2.1
        (pass3 cfg (pass12 g.bullets g.enemies g.obstacles g.score).1
          g.player).2).2).1
    (pass4 (pass12 g.bullets g.enemies g.obstacles g.score).2.2.1
      (pass3 cfg (pass12 g.bullets g.enemies g.obstacles g.score).1
        g.player).2).1
    (pass12 g.bullets g.enemies g.obstacles g.score).2.2.2
  refine ⟨k1 + k2, ?_⟩
  show (pass7 now g.powerups _ _ _ _).2.2.2.2 = _
  rw [h2, h1]
  push_cast
  ring

/-- C1 (amended): the pickup clamp keeps health from exceeding the configured
maximum: whenever the player enters the collision resolver with health at most
`initial_health` and all configured damages are nonnegative, the health after
all seven passes is still at most `initial_health`.  (There is no lower clamp;
see the counterexample where health becomes negative.) -/
theorem health_upper_invariant (cfg : Config) (now : ℤ) (g : GameState)
    (hmax : g.player.health ≤ cfg.initial_health)
    (hd1 : 0 ≤ cfg.enemy_bullet_damage)
    (hd2 : 0 ≤ g.player.collision_with_enemy_damage)
    (hd3 : ∀ o ∈ g.obstacles, 0 ≤ o.collision_damage) :
    (handleCollisions cfg now g).player.health ≤ cfg.initial_health := by
  have hub : ∀ x ∈ (pass12 g.bullets g.enemies g.obstacles g.score).2.2.1,
      0 ≤ x.collision_damage := by
    intro x hx
    obtain ⟨o, ho, he⟩ := pass12_obstacle_source g.bullets g.enemies g.obstacles
      g.score x hx
    rw [he]
    exact hd3 o ho
  set r12 := pass12 g.bullets g.enemies g.obstacles g.score with hr12
  set pl3 := (pass3 cfg r12.1 g.player).2 with hpl3
  set r4 := pass4 r12.2.2.1 pl3 with hr4
  set r5 := pass5 r12.2.1 r4.2 with hr5
  set r6 := pass6 cfg g.pickups r5.2 with hr6
  have hfinal : (handleCollisions cfg now g).player.health = r6.2.health :=
    (pass7_player_fields now g.powerups r6.2 r5.1 r4.1 r12.2.2.2).1
  have h3 : pl3.health ≤ g.player.health := pass3_health_le cfg r12.1 g.player hd1
  have h4 : r4.2.health ≤ pl3.health := pass4_health_le r12.2.2.1 pl3 hub
  have hcw4 : r4.2.collision_with_enemy_damage = g.player.collision_with_enemy_damage := by
    rw [(pass4_char r12.2.2.1 pl3).2.2.2.2.1, (pass3_char cfg r12.1 g.player).2.2.2.2.1]
  have h5 : r5.2.health ≤ r4.2.health :=
    pass5_health_le r12.2.1 r4.2 (by rw [hcw4]; exact hd2)
  have hmax5 : r5.2.health ≤ cfg.initial_health := by linarith
  have h6 : r6.2.health ≤ cfg.initial_health :=
    (pass6_health_bounds cfg g.pickups r5.2 hmax5).1
  rw [hfinal]
  exact h6

/-- Witness for the amended C1 at a concrete state. -/
theorem health_upper_invariant_witness :
    gA.player.health ≤ cfgA.initial_health ∧
    0 ≤ cfgA.enemy_bullet_damage ∧
    0 ≤ gA.player.collision_with_enemy_damage ∧
    (∀ o ∈ gA.obstacles, 0 ≤ o.collision_damage) ∧
    (handleCollisions cfgA 0 gA).player.health ≤ cfgA.initial_health :=
  ⟨by decide, by decide, by decide, by decide,
   health_upper_invariant cfgA 0 gA (by decide) (by decide) (by decide) (by decide)⟩

/-- A bullet fixture sitting exactly on the player's center. -/
def bulletHit : Bullet :=
  { radius := 4, x := 400, y := 300, dx := 0, dy := 0, from_player := false }

/-- A GAME state whose unshielded player has 1 health and is overlapped by an
enemy bullet whose configured damage is 2. -/
def gLowHealth : GameState :=
  { gA with mode := Mode.game
            player := { playerA with health := 1 }
            bullets := [bulletHit] }

/-- Counterexample to C1 as stated: damage is not clamped at 0.  With health 1
and enemy-bullet damage 2, one collision pass drives the health to −1, outside
`[0, max_health]`. -/
theorem health_goes_negative :
    (handleCollisions cfgA 0 gLowHealth).player.health = -1 ∧
    ¬(0 ≤ (handleCollisions cfgA 0 gLowHealth).player.health) := by
  have hplayer : (handleCollisions cfgA 0 gLowHealth).player
      = (pass3 cfgA [bulletHit] gLowHealth.player).2 := rfl
  have hcond : (!bulletHit.from_player && hits bulletHit.x bulletHit.y
      bulletHit.radius gLowHealth.player.x gLowHealth.player.y
      gLowHealth.player.radius) = true := by
    norm_num [bulletHit, gLowHealth, gA, playerA, Player.init, cfgA, hits]
  have hsh : gLowHealth.player.is_shielded = false := rfl
  have hval : (pass3 cfgA [bulletHit] gLowHealth.player).2
      = { gLowHealth.player with
          health := gLowHealth.player.health - cfgA.enemy_bullet_damage } := by
    show (pass3 cfgA (bulletHit :: []) gLowHealth.player).2 = _
    unfold pass3
    rw [if_pos hcond, if_neg (by simp [hsh])]
    rfl
  have hh : (handleCollisions cfgA 0 gLowHealth).player.health = -1 := by
    rw [hplayer, hval]
    show gLowHealth.player.health - cfgA.enemy_bullet_damage = -1
    norm_num [gLowHealth, gA, playerA, Player.init, cfgA]
  exact ⟨hh, by rw [hh]; norm_num⟩

/-- C4: with the shield powerup active, no collision pass reduces the
player's health (only pickups may raise it, given nonnegative restore
amounts), yet every colliding attacker is still consumed: no enemy bullet
overlapping the player, no overlapping obstacle and no ramming enemy survives
the frame's collision resolution. -/
theorem shield_blocks_damage (cfg : Config) (now : ℤ) (g : GameState)
    (hsh : g.player.is_shielded = true)
    (hmax : g.player.health ≤ cfg.initial_health)
    (hres : ∀ p ∈ g.pickups, 0 ≤ p.restore_amount) :
    g.player.health ≤ (handleCollisions cfg now g).player.health ∧
    (∀ b ∈ (handleCollisions cfg now g).bullets, b.from_player = false →
      hits b.x b.y b.radius g.player.x g.player.y g.player.radius = false) ∧
    (∀ o ∈ (handleCollisions cfg now g).obstacles,
      hits o.x o.y o.radius g.player.x g.player.y g.player.radius = false) ∧
    (∀ e ∈ (handleCollisions cfg now g).enemies,
      hits e.x e.y e.radius g.player.x g.player.y g.player.radius = false) := by
  have hpl3 : (hcR3 cfg g).2 = g.player :=
    (pass3_char cfg (hcR12 g).1 g.player).2.2.2.2.2.2 hsh
  have hpl4 : (hcR4 cfg g).2 = g.player := by
    show (pass4 (hcR12 g).2.2.1 (hcR3 cfg g).2).2 = g.player
    rw [hpl3]
    exact (pass4_char (hcR12 g).2.2.1 g.player).2.2.2.2.2.2 hsh
  have hpl5 : (hcR5 cfg g).2 = g.player := by
    show (pass5 (hcR12 g).2.1 (hcR4 cfg g).2).2 = g.player
    rw [hpl4]
    exact (pass5_char (hcR12 g).2.1 g.player).2.2.2.2.2.2 hsh
  refine ⟨?_, ?_, ?_, ?_⟩
  · rw [(handleCollisions_proj cfg now g).1]
    have hp7 : (hcR7 cfg now g).2.1.health = (hcR6 cfg g).2.health :=
      (pass7_player_fields now g.powerups (hcR6 cfg g).2 (hcR5 cfg g).1
        (hcR4 cfg g).1 (hcR12 g).2.2.2).1
    rw [hp7]
    have h6 := (pass6_health_bounds cfg g.pickups g.player hmax).2 hres
    show g.player.health ≤ (pass6 cfg g.pickups (hcR5 cfg g).2).2.health
    rw [hpl5]
    exact h6
  · intro b hb hfp
    rw [(handleCollisions_proj cfg now g).2.1] at hb
    have hb' : b ∈ (pass3 cfg (hcR12 g).1 g.player).1 := hb
    rw [(pass3_char cfg (hcR12 g).1 g.player).1] at hb'
    have hp := List.of_mem_filter hb'
    simp only [hfp, Bool.not_false, Bool.true_and, Bool.not_eq_true'] at hp
    exact hp
  · intro o hmem
    rw [(handleCollisions_proj cfg now g).2.2.2.1] at hmem
    have h1 : o ∈ (hcR4 cfg g).1 :=
      pass7_obstacles_sub now g.powerups (hcR6 cfg g).2 (hcR5 cfg g).1
        (hcR4 cfg g).1 (hcR12 g).2.2.2 o hmem
    have h2 : o ∈ (pass4 (hcR12 g).2.2.1 g.player).1 := by
      rw [← hpl3]
      exact h1
    rw [(pass4_char (hcR12 g).2.2.1 g.player).1] at h2
    have hp := List.of_mem_filter h2
    simpa using hp
  · intro e hmem
    rw [(handleCollisions_proj cfg now g).2.2.1] at hmem
    have h1 : e ∈ (hcR5 cfg g).1 :=
      pass7_enemies_sub now g.powerups (hcR6 cfg g).2 (hcR5 cfg g).1
        (hcR4 cfg g).1 (hcR12 g).2.2.2 e hmem
    have h2 : e ∈ (pass5 (hcR12 g).2.1 g.player).1 := by
      rw [← hpl4]
      exact h1
    rw [(pass5_char (hcR12 g).2.1 g.player).1] at h2
    have hp := List.of_mem_filter h2
    simpa using hp

/-- A shielded player fixture (shield expiry far in the future). -/
def playerShielded : Player := playerA.apply_powerup PType.shield 0 100000

/-- An obstacle fixture sitting on the player's center. -/
def obsHit : Obstacle :=
  { radius := 12, x := 400, y := 300, health := 3, speed := 1, collision_damage := 2 }

/-- An enemy fixture ramming the player's center. -/
def enemyRam : Enemy :=
  { radius := 12, x := 400, y := 300, health := 2, fire_delay := 500,
    last_shot_time := 0, speed := 1, difficulty := 0 }

/-- A GAME state with a shielded player overlapped by an enemy bullet, an
obstacle and a ramming enemy at once. -/
def gShield : GameState :=
  { gA with
    mode := Mode.game
    player := playerShielded
    bullets := [bulletHit]
    obstacles := [obsHit]
    enemies := [enemyRam] }

/-- Witness for C4 at the concrete shielded state. -/
theorem shield_blocks_damage_witness :
    gShield.player.is_shielded = true ∧
    gShield.player.health ≤ cfgA.initial_health ∧
    (∀ p ∈ gShield.pickups, 0 ≤ p.restore_amount) ∧
    (gShield.player.health ≤ (handleCollisions cfgA 0 gShield).player.health ∧
     (∀ b ∈ (handleCollisions cfgA 0 gShield).bullets, b.from_player = false →
       hits b.x b.y b.radius gShield.player.x gShield.player.y
         gShield.player.radius = false) ∧
     (∀ o ∈ (handleCollisions cfgA 0 gShield).obstacles,
       hits o.x o.y o.radius gShield.player.x gShield.player.y
         gShield.player.radius = false) ∧
     (∀ e ∈ (handleCollisions cfgA 0 gShield).enemies,
       hits e.x e.y e.radius gShield.player.x gShield.player.y
         gShield.player.radius = false)) :=
  ⟨by decide, by decide, by decide,
   shield_blocks_damage cfgA 0 gShield (by decide) (by decide) (by decide)⟩

/-- C7: picking up a nuke powerup (overlapping, kind `nuke`) in the powerup
pass empties both the enemy and the obstacle collections in the same step and
adds 10 to the score for each entity cleared: with `n` enemies and `m`
obstacles present, the score rises by exactly `10 * (n + m)`. -/
theorem nuke_clears_and_scores (now : ℤ) (pw : Powerup) (pl : Player)
    (es : List Enemy) (os : List Obstacle) (sc : ℚ)
    (hc : hits pw.x pw.y pw.radius pl.x pl.y pl.radius = true)
    (hn : pw.ptype = PType.nuke) :
    (pass7 now [pw] pl es os sc).2.2.1 = [] ∧
    (pass7 now [pw] pl es os sc).2.2.2.1 = [] ∧
    (pass7 now [pw] pl es os sc).1 = [] ∧
    (pass7 now [pw] pl es os sc).2.2.2.2
      = sc + 10 * ((es.length : ℚ) + (os.length : ℚ)) := by
  unfold pass7
  rw [if_pos hc, if_pos hn]
  refine ⟨rfl, rfl, rfl, ?_⟩
  show sc + 10 * (es.length : ℚ) + 10 * (os.length : ℚ)
      = sc + 10 * ((es.length : ℚ) + (os.length : ℚ))
  ring

/-- A nuke powerup fixture on the player's center. -/
def nukePw : Powerup :=
  { ptype := PType.nuke, radius := 16, x := 400, y := 300, speed := 1,
    duration := 5000 }

/-- Three enemy fixtures. -/
def enemiesThree : List Enemy :=
  [{ radius := 12, x := 100, y := 50, health := 2, fire_delay := 500,
     last_shot_time := 0, speed := 1, difficulty := 0 },
   { radius := 12, x := 200, y := 60, health := 2, fire_delay := 500,
     last_shot_time := 0, speed := 1, difficulty := 0 },
   { radius := 12, x := 300, y := 70, health := 2, fire_delay := 500,
     last_shot_time := 0, speed := 1, difficulty := 0 }]

/-- Two obstacle fixtures. -/
def obstaclesTwo : List Obstacle :=
  [{ radius := 20, x := 120, y := 80, health := 3, speed := 1, collision_damage := 2 },
   { radius := 25, x := 500, y := 90, health := 3, speed := 1, collision_damage := 2 }]

/-- Witness for C7: 3 enemies and 2 obstacles → both collections empty and
score +10 × (3 + 2) = +50. -/
theorem nuke_clears_and_scores_witness :
    hits nukePw.x nukePw.y nukePw.radius playerA.x playerA.y playerA.radius
      = true ∧
    nukePw.ptype = PType.nuke ∧
    ((pass7 0 [nukePw] playerA enemiesThree obstaclesTwo 0).2.2.1 = [] ∧
     (pass7 0 [nukePw] playerA enemiesThree obstaclesTwo 0).2.2.2.1 = [] ∧
     (pass7 0 [nukePw] playerA enemiesThree obstaclesTwo 0).1 = [] ∧
     (pass7 0 [nukePw] playerA enemiesThree obstaclesTwo 0).2.2.2.2
       = 0 + 10 * ((enemiesThree.length : ℚ) + (obstaclesTwo.length : ℚ))) ∧
    0 + 10 * ((enemiesThree.length : ℚ) + (obstaclesTwo.length : ℚ)) = 50 :=
  ⟨by norm_num [hits, nukePw, playerA, Player.init, cfgA], rfl,
   nuke_clears_and_scores 0 nukePw playerA enemiesThree obstaclesTwo 0
     (by norm_num [hits, nukePw, playerA, Player.init, cfgA]) rfl,
   by norm_num [enemiesThree, obstaclesTwo]⟩

/-- One frame changes the score by exactly the passive 3/100 increment plus a
(possibly zero) number of 10-point awards. -/
theorem gameFrame_score (cfg : Config) (env : FrameEnv) (now : ℤ) (g : GameState) :
    ∃ k : ℕ, (gameFrame cfg env now g).score = g.score + 3 / 100 + 10 * k := by
  unfold gameFrame
  rw [(terminal_check_fields _ _).2.1]
  obtain ⟨k, hk⟩ := handleCollisions_score cfg now (framePre cfg env now g)
  refine ⟨k, ?_⟩
  rw [hk]
  show (framePre cfg env now g).score + 10 * (k : ℚ) = g.score + 3 / 100 + 10 * k
  have hpre : (framePre cfg env now g).score = g.score + 3 / 100 := rfl
  rw [hpre]

/-- C10: within a GAME session the score never decreases: each frame adds the
passive 3/100 increment plus 10 per destroyed entity and nothing ever
subtracts, so the score is monotone over any sequence of frames. -/
theorem score_monotone (cfg : Config) (env : FrameEnv) (now : ℤ)
    (g : GameState) (fs : List (FrameEnv × ℤ)) :
    (∃ k : ℕ, (gameFrame cfg env now g).score = g.score + 3 / 100 + 10 * k) ∧
    g.score ≤ (gameFrame cfg env now g).score ∧
    g.score ≤ (runFrames cfg fs g).score := by
  have hstep : ∀ (e : FrameEnv) (t : ℤ) (s : GameState),
      s.score ≤ (gameFrame cfg e t s).score := by
    intro e t s
    obtain ⟨k, hk⟩ := gameFrame_score cfg e t s
    rw [hk]
    have hknn : (0 : ℚ) ≤ 10 * (k : ℚ) := by positivity
    linarith
  have htrace : ∀ (fs' : List (FrameEnv × ℤ)) (s : GameState),
      s.score ≤ (runFrames cfg fs' s).score := by
    intro fs'
    induction fs' with
    | nil => intro s; exact le_refl _
    | cons f rest ih =>
      intro s
      obtain ⟨fe, ft⟩ := f
      calc s.score ≤ (gameFrame cfg fe ft s).score := hstep fe ft s
        _ ≤ _ := ih (gameFrame cfg fe ft s)
  exact ⟨gameFrame_score cfg env now g, hstep env now g, htrace fs g⟩

/-- C5: per-frame single-target bullet semantics.  (i) A player bullet that
overlaps nothing changes nothing and is not consumed.  (ii) The first enemy in
iteration order that strictly overlaps the bullet consumes it: that enemy
alone is damaged (removed at health 0, scoring 10), the enemies after it are
never examined, and the obstacles are untouched.  (iii) Obstacles are scanned
only for a bullet that hit no enemy, with the same first-match rule.
(iv) Passes 1–2 only delete bullets (the output is a sublist of the input), so
a consumed bullet is not in the list pass 3 iterates; and (v) pass 3 never
consumes a player-owned bullet. -/
theorem bullet_single_target (b : Bullet) (es : List Enemy) (os : List Obstacle)
    (bs : List Bullet) (es0 : List Enemy) (os0 : List Obstacle) (sc : ℚ)
    (cfg : Config) (pl : Player) :
    ((∀ e ∈ es, hits b.x b.y b.radius e.x e.y e.radius = false) →
     (∀ o ∈ os, hits b.x b.y b.radius o.x o.y o.radius = false) →
      processPlayerBullet b es os = (es, os, 0, false)) ∧
    (∀ es₁ e es₂, es = es₁ ++ e :: es₂ →
      (∀ x ∈ es₁, hits b.x b.y b.radius x.x x.y x.radius = false) →
      hits b.x b.y b.radius e.x e.y e.radius = true →
      processPlayerBullet b es os =
        ((if e.health - 1 ≤ 0 then es₁ ++ es₂
          else es₁ ++ { e with health := e.health - 1 } :: es₂),
         os, (if e.health - 1 ≤ 0 then (10 : ℚ) else 0), true)) ∧
    ((∀ x ∈ es, hits b.x b.y b.radius x.x x.y x.radius = false) →
     ∀ os₁ o os₂, os = os₁ ++ o :: os₂ →
      (∀ x ∈ os₁, hits b.x b.y b.radius x.x x.y x.radius = false) →
      hits b.x b.y b.radius o.x o.y o.radius = true →
      processPlayerBullet b es os =
        (es, (if o.health - 1 ≤ 0 then os₁ ++ os₂
              else os₁ ++ { o with health := o.health - 1 } :: os₂),
         (if o.health - 1 ≤ 0 then (10 : ℚ) else 0), true)) ∧
    (pass12 bs es0 os0 sc).1.Sublist bs ∧
    ((pass3 cfg bs pl).1.filter (fun x => x.from_player)
        = bs.filter (fun x => x.from_player)) := by
  refine ⟨?_, ?_, ?_, pass12_bullets_sublist bs es0 os0 sc, ?_⟩
  · intro h1 h2
    unfold processPlayerBullet
    rw [(hitEnemies_none_iff b es).mpr h1, (hitObstacles_none_iff b os).mpr h2]
  · intro es₁ e es₂ hdec h1 he
    subst hdec
    unfold processPlayerBullet
    rw [hitEnemies_append b es₁ e es₂ h1 he]
  · intro hnone os₁ o os₂ hdec h1 ho
    subst hdec
    unfold processPlayerBullet
    rw [(hitEnemies_none_iff b es).mpr hnone,
      hitObstacles_append b os₁ o os₂ h1 ho]
  · rw [(pass3_char cfg bs pl).1, List.filter_filter]
    exact List.filter_congr (fun x _ => by cases hx : x.from_player <;> simp [hx])

/-- A player-owned bullet fixture at (100, 100). -/
def pBul : Bullet :=
  { radius := 4, x := 100, y := 100, dx := 0, dy := 0, from_player := true }

/-- An enemy fixture far from `pBul` (no overlap). -/
def eFar : Enemy :=
  { radius := 10, x := 500, y := 500, health := 2, fire_delay := 500,
    last_shot_time := 0, speed := 1, difficulty := 0 }

/-- An enemy fixture overlapping `pBul` with health 1 (dies to one hit). -/
def eHit : Enemy :=
  { radius := 10, x := 105, y := 100, health := 1, fire_delay := 500,
    last_shot_time := 0, speed := 1, difficulty := 0 }

/-- A second enemy fixture also overlapping `pBul` (must stay untouched). -/
def eHit2 : Enemy :=
  { radius := 10, x := 100, y := 100, health := 5, fire_delay := 500,
    last_shot_time := 0, speed := 1, difficulty := 0 }

/-- An obstacle fixture far from `pBul`. -/
def oFar : Obstacle :=
  { radius := 10, x := 600, y := 500, health := 3, speed := 1,
    collision_damage := 2 }

/-- Witness for C5: with two overlapping enemies in the list, only the first
one is struck (and removed, +10), the second overlapping enemy and the
obstacles are untouched, the bullet is consumed; pass 1–2 output is a sublist
of its input and pass 3 keeps player bullets. -/
theorem bullet_single_target_witness :
    processPlayerBullet pBul [eFar, eHit, eHit2] [oFar]
      = ([eFar, eHit2], [oFar], 10, true) ∧
    (pass12 [pBul] [eHit] [] 0).1.Sublist [pBul] ∧
    (pass3 cfgA [pBul] playerA).1.filter (fun x => x.from_player)
      = [pBul].filter (fun x => x.from_player) :=
  ⟨(bullet_single_target pBul [eFar, eHit, eHit2] [oFar] [pBul] [eHit] [] 0
      cfgA playerA).2.1 [eFar] eHit [eHit2] rfl
      (by
        intro x hx
        rw [List.mem_singleton] at hx
        subst hx
        norm_num [hits, pBul, eFar])
      (by norm_num [hits, pBul, eHit]),
   (bullet_single_target pBul [eFar, eHit, eHit2] [oFar] [pBul] [eHit] [] 0
      cfgA playerA).2.2.2.1,
   (bullet_single_target pBul [eFar, eHit, eHit2] [oFar] [pBul] [eHit] [] 0
      cfgA playerA).2.2.2.2⟩

end SFS
